import Mathlib

/-!
Verification of the shellody shell core (`src/shellody/shell.py`).

The embedding translates the dispatch loop (`Shell.run`), registration
(`Shell.register_handler`, `Shell.register_builtin_handlers`), the built-in
actions (`Shell.HelpAction`, `Shell.ExitAction`), the completer plumbing
(`ShellCompleter`, `Shell.HandlerValueCompleter`, the default
`CommandHandler.get_completions`) and the line tokenization into plain Lean
functions.  The collaborator pieces that are not part of the shipped source
(the `argparse` subparser validation configured by
`arguments.add_parser_arguments`, and the `prompt_toolkit`
`NestedCompleter`/`WordCompleter` resolution used by `ShellCompleter`) are
modelled from the specification and are marked as such in their doc comments.
-/

namespace Shellody

/-- Python whitespace predicate used by `str.strip()`: space, tab, newline,
carriage return, vertical tab and form feed. -/
def pyIsSpace (c : Char) : Bool :=
  c = ' ' || c = '\t' || c = '\n' || c = '\r' || c = '\x0b' || c = '\x0c'

/-- Python `text.strip()` on the underlying character list: drop whitespace
from both ends (shell.py:203 and shell.py:208 call `text.strip()`). -/
def pyStripChars (l : List Char) : List Char :=
  ((l.dropWhile pyIsSpace).reverse.dropWhile pyIsSpace).reverse

/-- Python `s.split(' ')` with the explicit single-space separator
(shell.py:208): every occurrence of the space character ends a piece, so
consecutive spaces produce empty pieces, and no other whitespace character
separates.  On the empty string Python returns `[""]`, hence the base case. -/
def splitOnSpaceChars : List Char → List (List Char)
  | [] => [[]]
  | c :: cs =>
    if c = ' ' then [] :: splitOnSpaceChars cs
    else
      match splitOnSpaceChars cs with
      | [] => [[c]]
      | t :: ts => (c :: t) :: ts

/-- Interleave the pieces with single spaces; the left inverse of
`splitOnSpaceChars` used to state the tokenization round trip. -/
def joinSpaces : List (List Char) → List Char
  | [] => []
  | [t] => t
  | t :: ts => t ++ ' ' :: joinSpaces ts

/-- shell.py:208 `command_spec = text.strip().split(' ')`. -/
def tokenize (text : String) : List String :=
  (splitOnSpaceChars (pyStripChars text.data)).map (fun cs => String.mk cs)

/-- Arity of one declared argument.  `one` is a plain positional taking
exactly one token; `optional` is the question-mark `nargs` style, taking one
token when available (as in `Shell.HelpAction.ARG_SPEC`). -/
inductive Arity
  | one
  | optional
deriving DecidableEq

/-- One argument descriptor of an argument specification: its destination
name and arity (spec section 3, `ArgumentSpec`). -/
structure Argument where
  name : String
  arity : Arity
deriving DecidableEq

/-- An argument specification: the declared arguments in declaration order. -/
abbrev ArgSpec := List Argument

/-- The fields of a parsed argument namespace: destination name paired with
the token bound to it, in declaration order. -/
abbrev Fields := List (String × String)

/-- Outcome of a `CommandHandler.handle` call: return an optional dict
payload, raise an `Exception`, or raise `SystemExit` (Python `exit()`, which
is a `BaseException` and so escapes the `except Exception` clause of
shell.py:222). -/
inductive HandleOutcome
  | ok (result : Option Fields)
  | raises (msg : String)
  | exits
deriving DecidableEq

/-- Snapshot passed to completers: the input line and the cursor position
(spec section 3, `CompletionContext`). -/
structure CompletionContext where
  line : String
  cursor : Nat
deriving DecidableEq

/-- Outcome of a `get_completions` call: yield a finite candidate list, or
raise `StopIteration` as the default `CommandHandler.get_completions` does
(shell.py:42). -/
inductive CompletionOutcome
  | yields (cands : List String)
  | raisesStopIteration
deriving DecidableEq

/-- A command handler (shell.py:35-42): `handle` over the parsed fields and
`get_completions` over a completion context, each as a pure function
returning the observable outcome. -/
structure CommandHandler where
  handle : Fields → HandleOutcome
  get_completions : CompletionContext → CompletionOutcome

/-- Default `CommandHandler.get_completions` (shell.py:41-42): it raises
`StopIteration` rather than returning an empty iterable. -/
def CommandHandler.default_get_completions : CompletionContext → CompletionOutcome :=
  fun _ => CompletionOutcome.raisesStopIteration

/-- `Shell.HandlerValueCompleter.get_completions` (shell.py:228-233): a plain
proxy that calls `get_completions` of the wrapped handler and propagates
whatever that call does, catching nothing. -/
def HandlerValueCompleter.get_completions
    (handlerGetCompletions : CompletionContext → CompletionOutcome)
    (context : CompletionContext) : CompletionOutcome :=
  handlerGetCompletions context

/-- Modelled from the spec: ArgumentCompleter (`completion.py`, a module of
this repository that is not under src/) resolves the argument position being
typed; at a value position, step 4 of spec section 4.3 reads: if the resolved
Argument has a bound ValueCompleter, delegate to it with the context;
otherwise produce an empty sequence.  Delegation is a plain call, so an
exceptional outcome of the ValueCompleter is the outcome of the query. -/
def ArgumentCompleter.value_position_completions
    (valueCompleter : Option (CompletionContext → CompletionOutcome))
    (context : CompletionContext) : CompletionOutcome :=
  match valueCompleter with
  | some vc => vc context
  | none => CompletionOutcome.yields []

/-- A Python dict with string keys, as an association list in insertion
order.  Updating an existing key replaces its value in place (Python dicts
keep the original insertion position of the key); a new key is appended. -/
abbrev Dict (β : Type) := List (String × β)

/-- Python `d[k] = v`. -/
def dictInsert {β : Type} (k : String) (v : β) : Dict β → Dict β
  | [] => [(k, v)]
  | (k₀, v₀) :: rest =>
    if k₀ = k then (k, v) :: rest else (k₀, v₀) :: dictInsert k v rest

/-- Python `d.get(k)` / `d[k]` lookup. -/
def dictGet {β : Type} (k : String) : Dict β → Option β
  | [] => none
  | (k₀, v₀) :: rest => if k₀ = k then some v₀ else dictGet k rest

/-- Python `d.keys()` in insertion order. -/
def dictKeys {β : Type} (m : Dict β) : List String :=
  m.map Prod.fst

/-- The state of an `ArgumentCompleter` (completion.py, constructed at
shell.py:194): the argument set it was built from and the bound value
completer, here the `Shell.HandlerValueCompleter` proxy over the registered
handler. -/
structure ArgumentCompleter where
  argument_set : ArgSpec
  value_completer : CompletionContext → CompletionOutcome

/-- `ShellCompleter` (shell.py:49-63): its observable state is the
`description` dict mapping command names to their argument completers.  The
`nested` index is rebuilt from `description` by
`NestedCompleter.from_nested_dict` on construction and on every
`add_completer` call, so it is a pure function of `description` and is
modelled as such (see `ShellCompleter.complete_command_names`). -/
structure ShellCompleter where
  description : Dict ArgumentCompleter

/-- `ShellCompleter.add_completer` (shell.py:58-63): store the argument
completer under the command name and rebuild the nested index. -/
def ShellCompleter.add_completer (c : ShellCompleter) (name : String)
    (arg_comp : ArgumentCompleter) : ShellCompleter :=
  { description := dictInsert name arg_comp c.description }

/-- Byte-free prefix test on the underlying character lists. -/
def strIsPrefixOf (p s : String) : Bool :=
  p.data.isPrefixOf s.data

/-- Modelled from the spec: the command-name resolution of the nested index
(`NestedCompleter.from_nested_dict` and `WordCompleter` from
`prompt_toolkit`, outside this repository).  Spec section 4.2 step 2: when at
most one token is present, the candidates are all registered command names
whose prefix matches the partial token, case-sensitive, in lexical order for
determinism.  The registered names are the keys of
`ShellCompleter.description`. -/
def ShellCompleter.complete_command_names (d : Dict ArgumentCompleter)
    (partialTok : String) : List String :=
  List.insertionSort (fun a b => a ≤ b)
    ((dictKeys d).filter (fun n => strIsPrefixOf partialTok n))

/-- The dispatch-relevant state of a `Shell` (shell.py:94-158): the handler
map, the subparser map (each subparser characterized by the argument set
actually added to it), and the completer.  The prompt session, key bindings
and printers are front-end collaborators outside the core. -/
structure Shell where
  handler_map : Dict CommandHandler
  subparser_map : Dict ArgSpec
  completer : ShellCompleter

/-- `Shell.register_handler` (shell.py:177-198).  Python truthiness governs
the `if argument_set:` guard: `None` and an empty mapping are both falsy, so
a command registered without a non-empty argument set gets a subparser with
no arguments added and no entry in the completer description.  Both the
subparser map and the handler map are always updated. -/
def Shell.register_handler (sh : Shell) (name : String)
    (handler : CommandHandler) (argument_set : Option ArgSpec) : Shell :=
  let truthy : Bool :=
    match argument_set with
    | none => false
    | some s => !s.isEmpty
  let parserArgs : ArgSpec := if truthy then argument_set.getD [] else []
  let completer : ShellCompleter :=
    if truthy then
      sh.completer.add_completer name
        { argument_set := argument_set.getD []
          value_completer :=
            HandlerValueCompleter.get_completions handler.get_completions }
    else sh.completer
  { handler_map := dictInsert name handler sh.handler_map
    subparser_map := dictInsert name parserArgs sh.subparser_map
    completer := completer }

/-- `Shell.HelpAction.handle` (shell.py:249-253).  The namespace produced for
the help command never carries an `action` field: `register_builtin_handlers`
passes the argument spec under the keyword `arguments`, which lands in
`**kwargs` while `argument_set` stays `None` (shell.py:160-175, 181), so the
help subparser has no arguments added, and reading `command_args.action`
raises `AttributeError`.  When the field is present the source prints help
via the subparser map and returns `None`. -/
def HelpAction.handle (fields : Fields) : HandleOutcome :=
  match dictGet "action" fields with
  | none => HandleOutcome.raises "AttributeError: action"
  | some _ => HandleOutcome.ok none

/-- `Shell.HelpAction.get_completions` (shell.py:255-262): yields the
registered command names (the filtering by the typed word is done by the
`prompt_toolkit` `WordCompleter`).  The names it reads from the shell at call
time are supplied as a parameter, since the Python object captures the shell
by reference. -/
def HelpAction.get_completions (commandNames : List String) :
    CompletionContext → CompletionOutcome :=
  fun _ => CompletionOutcome.yields commandNames

/-- `Shell.HelpAction` as a handler value. -/
def helpHandler (commandNames : List String) : CommandHandler :=
  { handle := HelpAction.handle
    get_completions := HelpAction.get_completions commandNames }

/-- `Shell.ExitAction.handle` (shell.py:270-271): calls `exit()`, raising
`SystemExit`. -/
def ExitAction.handle : Fields → HandleOutcome :=
  fun _ => HandleOutcome.exits

/-- `Shell.ExitAction` as a handler value; it does not override
`get_completions`, so the default (raising `StopIteration`) applies. -/
def exitHandler : CommandHandler :=
  { handle := ExitAction.handle
    get_completions := CommandHandler.default_get_completions }

/-- `Shell.register_builtin_handlers` (shell.py:160-175): registers `help`
then `exit`.  Both calls pass the builtin arg specs under the keyword
`arguments`, which is swallowed by `**kwargs`; `argument_set` is therefore
`None` for both builtins. -/
def Shell.register_builtin_handlers (sh : Shell) : Shell :=
  (sh.register_handler "help" (helpHandler ["help", "exit"]) none).register_handler
    "exit" exitHandler none

/-- The dispatch-relevant effect of `Shell.__init__` (shell.py:94-158):
empty maps and completer, then `register_builtin_handlers`. -/
def Shell.init : Shell :=
  Shell.register_builtin_handlers
    { handler_map := [], subparser_map := [], completer := { description := [] } }

/-- Modelled from the spec: the error taxonomy of the collaborator grammar
parser (`argparse` subparsers configured by `arguments.add_parser_arguments`
from `arguments.py`, a module of this repository that is not under src/).
`unknownCommand` covers a first token that is not a registered subparser
name; `argumentError` covers a token list failing grammar validation;
`noCommand` covers an empty token list.  All three make `parse_args` print a
message and raise `SystemExit`, which shell.py:210 catches. -/
inductive ParseError
  | noCommand
  | unknownCommand (tok : String)
  | argumentError (cmd : String) (msg : String)
deriving DecidableEq

/-- Modelled from the spec: validation of the remaining tokens against a
registered argument specification (spec section 4.4 step c and section 6
collaborator contract; positional fragment).  Arguments consume tokens in
declaration order: an `exactly-one` argument requires a token, an `optional`
argument takes one when available; leftover tokens are unrecognized. -/
def bindArgs : ArgSpec → List String → Except String Fields
  | [], [] => Except.ok []
  | [], _ :: _ => Except.error "unrecognized arguments"
  | a :: rest, [] =>
    match a.arity with
    | Arity.one =>
      Except.error ("the following arguments are required: " ++ a.name)
    | Arity.optional => bindArgs rest []
  | a :: rest, t :: ts =>
    match bindArgs rest ts with
    | Except.ok fs => Except.ok ((a.name, t) :: fs)
    | Except.error e => Except.error e

/-- Modelled from the spec: `self.parser.parse_args(command_spec)`
(shell.py:209) with the subparser setup of shell.py:106-110.  The first token
selects the subparser registered under that name (dest `command`); the
remaining tokens are validated against the arguments added to that
subparser. -/
def Shell.parse_args (sh : Shell) (tokens : List String) :
    Except ParseError (String × Fields) :=
  match tokens with
  | [] => Except.error ParseError.noCommand
  | cmd :: rest =>
    match dictGet cmd sh.subparser_map with
    | none => Except.error (ParseError.unknownCommand cmd)
    | some spec =>
      match bindArgs spec rest with
      | Except.ok fields => Except.ok (cmd, fields)
      | Except.error msg => Except.error (ParseError.argumentError cmd msg)

/-- Python truthiness of the returned result (shell.py:217 `if result:`):
`None` and the empty dict are falsy, so only a non-empty payload reaches the
presentation layer (json.dumps or PrettyPrinter, shell.py:218-221), and it is
handed over unchanged. -/
def displayResult : Option Fields → Option Fields
  | none => none
  | some payload => if payload.isEmpty then none else some payload

/-- Everything observable about one iteration of the `Shell.run` loop
(shell.py:200-223): the `handle` calls made, the payload handed to the
presentation layer, the parse-level error reported (argparse prints it before
raising `SystemExit`), the command-level error printed by the
`except Exception` clause, and whether the loop continues. -/
structure DispatchResult where
  invocations : List (String × Fields)
  printed : Option Fields
  parseErrorReported : Option ParseError
  commandErrorReported : Option String
  continues : Bool
deriving DecidableEq

/-- The inner try block of `Shell.run` (shell.py:213-223): look the handler
up under the parsed command name (a missing entry raises `KeyError`, an
`Exception`, caught by the `except Exception` clause) and call `handle` on
the parsed fields.  A returned payload goes through `displayResult`, a raised
`Exception` is printed as a command error and the loop continues, and a
raised `SystemExit` (as from `Shell.ExitAction.handle`) escapes the
`except Exception` clause and terminates the loop. -/
def Shell.handleCommand (sh : Shell) (cmd : String) (fields : Fields) :
    DispatchResult :=
  match dictGet cmd sh.handler_map with
  | none =>
    { invocations := [], printed := none, parseErrorReported := none
      commandErrorReported := some ("KeyError: " ++ cmd), continues := true }
  | some handler =>
    match handler.handle fields with
    | HandleOutcome.ok result =>
      { invocations := [(cmd, fields)], printed := displayResult result
        parseErrorReported := none, commandErrorReported := none
        continues := true }
    | HandleOutcome.raises msg =>
      { invocations := [(cmd, fields)], printed := none
        parseErrorReported := none, commandErrorReported := some msg
        continues := true }
    | HandleOutcome.exits =>
      { invocations := [(cmd, fields)], printed := none
        parseErrorReported := none, commandErrorReported := none
        continues := false }

/-- One iteration of `Shell.run` (shell.py:200-223) on the submitted line.
Blank input is skipped (shell.py:203).  A parse failure raises `SystemExit`,
caught at shell.py:210, and the loop continues.  Otherwise the parsed command
and fields reach the inner try block, `Shell.handleCommand`. -/
def Shell.dispatch (sh : Shell) (text : String) : DispatchResult :=
  if pyStripChars text.data = [] then
    { invocations := [], printed := none, parseErrorReported := none
      commandErrorReported := none, continues := true }
  else
    match sh.parse_args (tokenize text) with
    | Except.error e =>
      { invocations := [], printed := none, parseErrorReported := some e
        commandErrorReported := none, continues := true }
    | Except.ok (cmd, fields) => sh.handleCommand cmd fields

/-- The `Shell.run` loop over a list of submitted lines: each line is
dispatched in turn until a dispatch terminates the loop. -/
def Shell.runSession (sh : Shell) : List String → List DispatchResult
  | [] => []
  | line :: rest =>
    if (sh.dispatch line).continues then
      sh.dispatch line :: sh.runSession rest
    else
      [sh.dispatch line]

/-- The registry invariant behind the dispatch path: the handler map and the
subparser map hold exactly the same command names. -/
def Shell.mapsConsistent (sh : Shell) : Prop :=
  dictKeys sh.handler_map = dictKeys sh.subparser_map

/-- Splitting never yields an empty piece list. -/
theorem splitOnSpaceChars_ne_nil (l : List Char) : splitOnSpaceChars l ≠ [] := by
  cases l with
  | nil => simp [splitOnSpaceChars]
  | cons c cs =>
    unfold splitOnSpaceChars
    by_cases hc : c = ' '
    · rw [if_pos hc]
      simp
    · rw [if_neg hc]
      cases splitOnSpaceChars cs with
      | nil => simp
      | cons t ts => simp

/-- Unfolding `joinSpaces` at a cons whose tail is nonempty. -/
theorem joinSpaces_cons (t : List Char) (ts : List (List Char)) (h : ts ≠ []) :
    joinSpaces (t :: ts) = t ++ ' ' :: joinSpaces ts := by
  cases ts with
  | nil => exact absurd rfl h
  | cons u us => rfl

/-- Joining the pieces with single spaces reconstructs the split input:
`splitOnSpaceChars` loses nothing and invents nothing. -/
theorem joinSpaces_splitOnSpaceChars (l : List Char) :
    joinSpaces (splitOnSpaceChars l) = l := by
  induction l with
  | nil => rfl
  | cons c cs ih =>
    unfold splitOnSpaceChars
    by_cases hc : c = ' '
    · rw [if_pos hc, joinSpaces_cons _ _ (splitOnSpaceChars_ne_nil cs), ih, hc]
      rfl
    · rw [if_neg hc]
      cases hsc : splitOnSpaceChars cs with
      | nil => exact absurd hsc (splitOnSpaceChars_ne_nil cs)
      | cons t ts =>
        rw [hsc] at ih
        cases ts with
        | nil =>
          have ht : t = cs := ih
          show c :: t = c :: cs
          rw [ht]
        | cons u us =>
          show c :: (t ++ ' ' :: joinSpaces (u :: us)) = c :: cs
          rw [← ih]
          rfl

/-- No piece produced by the split contains the space character. -/
theorem space_not_mem_splitOnSpaceChars (l : List Char) :
    ∀ t ∈ splitOnSpaceChars l, ' ' ∉ t := by
  induction l with
  | nil =>
    intro t ht
    simp [splitOnSpaceChars] at ht
    simp [ht]
  | cons c cs ih =>
    intro t ht
    unfold splitOnSpaceChars at ht
    by_cases hc : c = ' '
    · rw [if_pos hc] at ht
      rcases List.mem_cons.mp ht with h | h
      · simp [h]
      · exact ih t h
    · rw [if_neg hc] at ht
      cases hsc : splitOnSpaceChars cs with
      | nil => exact absurd hsc (splitOnSpaceChars_ne_nil cs)
      | cons u us =>
        rw [hsc] at ht
        rcases List.mem_cons.mp ht with h | h
        · subst h
          intro hmem
          rcases List.mem_cons.mp hmem with h2 | h2
          · exact hc h2.symm
          · exact ih u (by rw [hsc]; exact List.mem_cons_self u us) h2
        · exact ih t (by rw [hsc]; exact List.mem_cons_of_mem _ h)

/-- Inserting the same key-value pair twice leaves the dict unchanged after
the first insertion. -/
theorem dictInsert_idem {β : Type} (k : String) (v : β) (m : Dict β) :
    dictInsert k v (dictInsert k v m) = dictInsert k v m := by
  induction m with
  | nil => simp [dictInsert]
  | cons p rest ih =>
    obtain ⟨k₀, v₀⟩ := p
    by_cases h : k₀ = k
    · simp [dictInsert, h]
    · simp [dictInsert, h, ih]

/-- The key list after an insertion: unchanged when the key is present,
extended at the end otherwise. -/
theorem dictKeys_dictInsert {β : Type} (k : String) (v : β) (m : Dict β) :
    dictKeys (dictInsert k v m) =
      if k ∈ dictKeys m then dictKeys m else dictKeys m ++ [k] := by
  induction m with
  | nil => simp [dictInsert, dictKeys]
  | cons p rest ih =>
    obtain ⟨k₀, v₀⟩ := p
    by_cases h : k₀ = k
    · subst h
      simp [dictInsert, dictKeys]
    · have h2 : ¬ k = k₀ := fun hh => h hh.symm
      simp only [dictInsert, if_neg h, dictKeys, List.map_cons] at ih ⊢
      rw [ih]
      by_cases hk : k ∈ List.map Prod.fst rest
      · simp [hk, h2]
      · simp [hk, h2]

/-- Keys survive any insertion. -/
theorem mem_dictKeys_dictInsert_of_mem {β : Type} (k k₀ : String) (v : β)
    (m : Dict β) (h : k₀ ∈ dictKeys m) : k₀ ∈ dictKeys (dictInsert k v m) := by
  rw [dictKeys_dictInsert]
  by_cases hk : k ∈ dictKeys m
  · rw [if_pos hk]; exact h
  · rw [if_neg hk]; exact List.mem_append_left _ h

/-- The inserted key is among the keys. -/
theorem mem_dictKeys_dictInsert_self {β : Type} (k : String) (v : β)
    (m : Dict β) : k ∈ dictKeys (dictInsert k v m) := by
  rw [dictKeys_dictInsert]
  by_cases hk : k ∈ dictKeys m
  · rw [if_pos hk]; exact hk
  · rw [if_neg hk]; exact List.mem_append_right _ (List.mem_singleton.mpr rfl)

/-- Successful validation binds exactly the supplied tokens, in order, as the
field values. -/
theorem bindArgs_snd :
    ∀ (spec : ArgSpec) (toks : List String) (fields : Fields),
      bindArgs spec toks = Except.ok fields → fields.map Prod.snd = toks := by
  intro spec
  induction spec with
  | nil =>
    intro toks fields h
    cases toks with
    | nil =>
      simp only [bindArgs, Except.ok.injEq] at h
      rw [← h]
      rfl
    | cons t ts => simp [bindArgs] at h
  | cons a rest ih =>
    intro toks fields h
    cases toks with
    | nil =>
      cases ha : a.arity with
      | one =>
        simp only [bindArgs, ha] at h
        exact absurd h (by simp)
      | optional =>
        simp only [bindArgs, ha] at h
        exact ih [] fields h
    | cons t ts =>
      simp only [bindArgs] at h
      cases hb : bindArgs rest ts with
      | ok fs =>
        rw [hb] at h
        simp only [Except.ok.injEq] at h
        rw [← h]
        simp [ih ts fs hb]
      | error e =>
        rw [hb] at h
        simp at h

/-- Dispatch of blank input (shell.py:203). -/
theorem dispatch_blank (sh : Shell) (text : String)
    (h : pyStripChars text.data = []) :
    sh.dispatch text =
      { invocations := [], printed := none, parseErrorReported := none
        commandErrorReported := none, continues := true } := by
  unfold Shell.dispatch
  rw [if_pos h]

/-- Dispatch when the parse step fails (shell.py:209-211). -/
theorem dispatch_parse_error (sh : Shell) (text : String) (e : ParseError)
    (hne : ¬ pyStripChars text.data = [])
    (hp : sh.parse_args (tokenize text) = Except.error e) :
    sh.dispatch text =
      { invocations := [], printed := none, parseErrorReported := some e
        commandErrorReported := none, continues := true } := by
  unfold Shell.dispatch
  rw [if_neg hne, hp]

/-- Dispatch when the parse step succeeds (shell.py:213-223). -/
theorem dispatch_parse_ok (sh : Shell) (text cmd : String) (fields : Fields)
    (hne : ¬ pyStripChars text.data = [])
    (hp : sh.parse_args (tokenize text) = Except.ok (cmd, fields)) :
    sh.dispatch text = sh.handleCommand cmd fields := by
  unfold Shell.dispatch
  rw [if_neg hne, hp]

/-- The inner try block when the handler returns. -/
theorem handleCommand_ok (sh : Shell) (cmd : String) (fields : Fields)
    (handler : CommandHandler) (result : Option Fields)
    (hh : dictGet cmd sh.handler_map = some handler)
    (hr : handler.handle fields = HandleOutcome.ok result) :
    sh.handleCommand cmd fields =
      { invocations := [(cmd, fields)], printed := displayResult result
        parseErrorReported := none, commandErrorReported := none
        continues := true } := by
  simp only [Shell.handleCommand, hh, hr]

/-- The inner try block when the handler raises an `Exception`. -/
theorem handleCommand_raises (sh : Shell) (cmd : String) (fields : Fields)
    (handler : CommandHandler) (msg : String)
    (hh : dictGet cmd sh.handler_map = some handler)
    (hr : handler.handle fields = HandleOutcome.raises msg) :
    sh.handleCommand cmd fields =
      { invocations := [(cmd, fields)], printed := none
        parseErrorReported := none, commandErrorReported := some msg
        continues := true } := by
  simp only [Shell.handleCommand, hh, hr]

/-- The inner try block when the handler raises `SystemExit`. -/
theorem handleCommand_exits (sh : Shell) (cmd : String) (fields : Fields)
    (handler : CommandHandler)
    (hh : dictGet cmd sh.handler_map = some handler)
    (hr : handler.handle fields = HandleOutcome.exits) :
    sh.handleCommand cmd fields =
      { invocations := [(cmd, fields)], printed := none
        parseErrorReported := none, commandErrorReported := none
        continues := false } := by
  simp only [Shell.handleCommand, hh, hr]

/-- The inner try block when the command name is missing from the handler
map: `KeyError`, an `Exception`, caught and printed. -/
theorem handleCommand_none (sh : Shell) (cmd : String) (fields : Fields)
    (hh : dictGet cmd sh.handler_map = none) :
    sh.handleCommand cmd fields =
      { invocations := [], printed := none, parseErrorReported := none
        commandErrorReported := some ("KeyError: " ++ cmd)
        continues := true } := by
  simp only [Shell.handleCommand, hh]

/-- Unfolding one loop iteration of the session. -/
theorem runSession_cons (sh : Shell) (line : String) (rest : List String) :
    sh.runSession (line :: rest) =
      if (sh.dispatch line).continues then
        sh.dispatch line :: sh.runSession rest
      else
        [sh.dispatch line] := rfl

/-- A user handler that succeeds and returns no payload, leaving
`get_completions` at its default. -/
def greetHandler : CommandHandler :=
  { handle := fun _ => HandleOutcome.ok none
    get_completions := CommandHandler.default_get_completions }

/-- A user handler whose `handle` raises an `Exception`. -/
def failingHandler : CommandHandler :=
  { handle := fun _ => HandleOutcome.raises "boom"
    get_completions := CommandHandler.default_get_completions }

/-- The argument spec of the example `greet` command: one required
positional `name`. -/
def greetSpec : ArgSpec := [{ name := "name", arity := Arity.one }]

/-- A concrete shell: the builtins plus `greet` (with an argument set) and
`bad` (registered without one). -/
def demoShell : Shell :=
  (Shell.init.register_handler "greet" greetHandler
      (some greetSpec)).register_handler "bad" failingHandler none

/-- C1: dispatching a line whose tokens validate against the argument spec
of a registered command invokes exactly that command handler, exactly once,
with the parsed field assignment, whose values are exactly the tokens
supplied after the command name in order; no other handler is invoked for
that line. -/
theorem C1_dispatch_invokes_matched_handler_once
    (sh : Shell) (text cmd : String) (rest : List String) (spec : ArgSpec)
    (fields : Fields) (handler : CommandHandler)
    (hne : ¬ pyStripChars text.data = [])
    (htok : tokenize text = cmd :: rest)
    (hspec : dictGet cmd sh.subparser_map = some spec)
    (hbind : bindArgs spec rest = Except.ok fields)
    (hh : dictGet cmd sh.handler_map = some handler) :
    (sh.dispatch text).invocations = [(cmd, fields)] ∧
      fields.map Prod.snd = rest := by
  have hp : sh.parse_args (tokenize text) = Except.ok (cmd, fields) := by
    rw [htok]
    simp only [Shell.parse_args, hspec, hbind]
  rw [dispatch_parse_ok sh text cmd fields hne hp]
  refine ⟨?_, bindArgs_snd spec rest fields hbind⟩
  cases hr : handler.handle fields with
  | ok r => rw [handleCommand_ok sh cmd fields handler r hh hr]
  | raises m => rw [handleCommand_raises sh cmd fields handler m hh hr]
  | exits => rw [handleCommand_exits sh cmd fields handler hh hr]

/-- C1 witness: dispatching `greet alice` on the demo shell invokes the
`greet` handler once with the field `name = alice`. -/
theorem C1_witness :
    tokenize "greet alice" = ["greet", "alice"] ∧
      (demoShell.dispatch "greet alice").invocations =
        [("greet", [("name", "alice")])] := by
  refine ⟨by decide, ?_⟩
  exact (C1_dispatch_invokes_matched_handler_once demoShell "greet alice"
    "greet" ["alice"] greetSpec [("name", "alice")] greetHandler (by decide)
    (by decide) (by rfl) (by rfl) (by rfl)).1

/-- C2: an `Exception` raised inside `handle` is caught at the dispatch
boundary and reported as a command-level error, the loop continues, and a
subsequent independent dispatch of a valid line in the same session still
invokes its handler. -/
theorem C2_handler_failure_isolated
    (sh : Shell) (l1 l2 cmd1 cmd2 : String) (f1 f2 : Fields)
    (h1 h2 : CommandHandler) (msg : String) (r : Option Fields)
    (hne1 : ¬ pyStripChars l1.data = [])
    (hp1 : sh.parse_args (tokenize l1) = Except.ok (cmd1, f1))
    (hh1 : dictGet cmd1 sh.handler_map = some h1)
    (hr1 : h1.handle f1 = HandleOutcome.raises msg)
    (hne2 : ¬ pyStripChars l2.data = [])
    (hp2 : sh.parse_args (tokenize l2) = Except.ok (cmd2, f2))
    (hh2 : dictGet cmd2 sh.handler_map = some h2)
    (hr2 : h2.handle f2 = HandleOutcome.ok r) :
    (sh.dispatch l1).commandErrorReported = some msg ∧
      (sh.dispatch l1).continues = true ∧
      sh.runSession [l1, l2] = [sh.dispatch l1, sh.dispatch l2] ∧
      (sh.dispatch l2).invocations = [(cmd2, f2)] := by
  have e1 : sh.dispatch l1 =
      { invocations := [(cmd1, f1)], printed := none
        parseErrorReported := none, commandErrorReported := some msg
        continues := true } := by
    rw [dispatch_parse_ok sh l1 cmd1 f1 hne1 hp1,
      handleCommand_raises sh cmd1 f1 h1 msg hh1 hr1]
  have e2 : sh.dispatch l2 =
      { invocations := [(cmd2, f2)], printed := displayResult r
        parseErrorReported := none, commandErrorReported := none
        continues := true } := by
    rw [dispatch_parse_ok sh l2 cmd2 f2 hne2 hp2,
      handleCommand_ok sh cmd2 f2 h2 r hh2 hr2]
  refine ⟨by rw [e1], by rw [e1], ?_, by rw [e2]⟩
  rw [runSession_cons, runSession_cons, e1, e2]
  simp [Shell.runSession]

/-- C2 witness: in the demo shell the failing `bad` command is followed by a
successful `greet alice` in the same session. -/
theorem C2_witness :
    demoShell.runSession ["bad", "greet alice"] =
        [demoShell.dispatch "bad", demoShell.dispatch "greet alice"] ∧
      (demoShell.dispatch "greet alice").invocations =
        [("greet", [("name", "alice")])] := by
  have h := C2_handler_failure_isolated demoShell "bad" "greet alice" "bad"
    "greet" [] [("name", "alice")] failingHandler greetHandler "boom" none
    (by decide) (by rfl) (by rfl) (by rfl)
    (by decide) (by rfl) (by rfl) (by rfl)
  exact ⟨h.2.2.1, h.2.2.2⟩

/-- C3: a line whose first token is not a registered command name invokes no
handler; the parse step reports the unknown command and the loop stays
running. -/
theorem C3_unknown_command_reports_and_continues
    (sh : Shell) (text tok : String) (rest : List String)
    (hne : ¬ pyStripChars text.data = [])
    (htok : tokenize text = tok :: rest)
    (hun : dictGet tok sh.subparser_map = none) :
    (sh.dispatch text).invocations = [] ∧
      (sh.dispatch text).parseErrorReported =
        some (ParseError.unknownCommand tok) ∧
      (sh.dispatch text).continues = true := by
  have hp : sh.parse_args (tokenize text) =
      Except.error (ParseError.unknownCommand tok) := by
    rw [htok]
    simp only [Shell.parse_args, hun]
  rw [dispatch_parse_error sh text _ hne hp]
  exact ⟨rfl, rfl, rfl⟩

/-- C3 witness: `unknown` is not registered on the fresh shell; dispatching
it invokes nothing and reports the unknown command. -/
theorem C3_witness :
    (Shell.init.dispatch "unknown").invocations = [] ∧
      (Shell.init.dispatch "unknown").parseErrorReported =
        some (ParseError.unknownCommand "unknown") := by
  have h := C3_unknown_command_reports_and_continues Shell.init "unknown"
    "unknown" [] (by decide) (by decide) (by rfl)
  exact ⟨h.1, h.2.1⟩

/-- C4 counterexample: `exit` is passed to `register_handler` during shell
construction, yet the completion candidates for its own full-name prefix are
empty: a name registered without a truthy argument set never enters the
completer description (shell.py:190-195), and the builtins are registered
that way. -/
theorem C4_counterexample :
    "exit" ∈ dictKeys Shell.init.handler_map ∧
      ShellCompleter.complete_command_names Shell.init.completer.description
        "exit" = [] := by
  decide

/-- C4 (amended): with at most one token typed, the candidates are exactly
the command names present in the completer description whose prefix matches
the partial token, case-sensitive and in lexical order; a name registered
with a non-empty argument set enters the description and therefore appears
among the candidates for its own prefix.  Names registered without an
argument set — the builtins `help` and `exit` among them — never enter the
description and are absent from the candidates. -/
theorem C4_amended_completion_candidates
    (d : Dict ArgumentCompleter) (p : String) (sh : Shell) (name : String)
    (handler : CommandHandler) (spec : ArgSpec) (hs : spec ≠ []) :
    (∀ n, n ∈ ShellCompleter.complete_command_names d p ↔
        (n ∈ dictKeys d ∧ strIsPrefixOf p n = true)) ∧
      List.Sorted (fun a b => a ≤ b)
        (ShellCompleter.complete_command_names d p) ∧
      name ∈ ShellCompleter.complete_command_names
        ((sh.register_handler name handler (some spec)).completer.description)
        name := by
  have hmem : ∀ (d₀ : Dict ArgumentCompleter) (q n : String),
      n ∈ ShellCompleter.complete_command_names d₀ q ↔
        (n ∈ dictKeys d₀ ∧ strIsPrefixOf q n = true) := by
    intro d₀ q n
    unfold ShellCompleter.complete_command_names
    rw [(List.perm_insertionSort _ _).mem_iff, List.mem_filter]
  refine ⟨fun n => hmem d p n, List.sorted_insertionSort _ _, ?_⟩
  cases spec with
  | nil => exact absurd rfl hs
  | cons a as =>
    rw [hmem]
    constructor
    · show name ∈ dictKeys (dictInsert name
        { argument_set := a :: as
          value_completer :=
            HandlerValueCompleter.get_completions handler.get_completions }
        sh.completer.description)
      exact mem_dictKeys_dictInsert_self _ _ _
    · rw [strIsPrefixOf, List.isPrefixOf_iff_prefix]

/-- C4 witness: registering `greet` with its one-argument spec makes it a
candidate for its own prefix. -/
theorem C4_witness :
    "greet" ∈ ShellCompleter.complete_command_names
      ((Shell.init.register_handler "greet" greetHandler
          (some greetSpec)).completer.description) "greet" :=
  (C4_amended_completion_candidates [] "" Shell.init "greet" greetHandler
    greetSpec (by decide)).2.2

/-- C5: the loop leaves its running state exactly when the dispatched line
parses to a command whose registered handler raises `SystemExit` — on the
freshly constructed shell, dispatching `exit` does exactly that — while
every error below the dispatch boundary (blank input aside, a parse failure
including an unknown command, a missing handler entry, or a handler
`Exception`) leaves the dispatch result with `continues = true`. -/
theorem C5_terminates_iff_exit :
    (∀ (sh : Shell) (line : String),
        (sh.dispatch line).continues = false ↔
          ∃ cmd fields handler,
            ¬ pyStripChars line.data = [] ∧
            sh.parse_args (tokenize line) = Except.ok (cmd, fields) ∧
            dictGet cmd sh.handler_map = some handler ∧
            handler.handle fields = HandleOutcome.exits) ∧
      (Shell.init.dispatch "exit").continues = false := by
  constructor
  · intro sh line
    constructor
    · intro hterm
      by_cases hb : pyStripChars line.data = []
      · rw [dispatch_blank sh line hb] at hterm
        simp at hterm
      · cases hp : sh.parse_args (tokenize line) with
        | error e =>
          rw [dispatch_parse_error sh line e hb hp] at hterm
          simp at hterm
        | ok cf =>
          obtain ⟨cmd, fields⟩ := cf
          rw [dispatch_parse_ok sh line cmd fields hb hp] at hterm
          cases hh : dictGet cmd sh.handler_map with
          | none =>
            rw [handleCommand_none sh cmd fields hh] at hterm
            simp at hterm
          | some handler =>
            cases hr : handler.handle fields with
            | ok r =>
              rw [handleCommand_ok sh cmd fields handler r hh hr] at hterm
              simp at hterm
            | raises m =>
              rw [handleCommand_raises sh cmd fields handler m hh hr] at hterm
              simp at hterm
            | exits =>
              exact ⟨cmd, fields, handler, hb, rfl, hh, hr⟩
    · rintro ⟨cmd, fields, handler, hb, hp, hh, hr⟩
      rw [dispatch_parse_ok sh line cmd fields hb hp,
        handleCommand_exits sh cmd fields handler hh hr]
  · decide

/-- C5 witness: the backward direction instantiated at the fresh shell and
the `exit` line, every hypothesis discharged concretely. -/
theorem C5_witness : (Shell.init.dispatch "exit").continues = false :=
  (C5_terminates_iff_exit.1 Shell.init "exit").mpr
    ⟨"exit", [], exitHandler, by decide, by rfl, by rfl, by rfl⟩

/-- C6: evaluation of the completion chain at the failing input.  A handler
that does not override `get_completions` — here `Shell.ExitAction`, which
keeps the `CommandHandler` default — makes the `Shell.HandlerValueCompleter`
proxy raise `StopIteration` (shell.py:42 via shell.py:233) instead of
yielding an empty candidate sequence, and the `ArgumentCompleter` value
delegation (spec section 4.3) propagates that exceptional outcome into the
completion query instead of degrading to the empty sequence. -/
theorem C6_default_value_completion_raises :
    HandlerValueCompleter.get_completions exitHandler.get_completions
        { line := "exit ", cursor := 5 } =
      CompletionOutcome.raisesStopIteration ∧
      ArgumentCompleter.value_position_completions
          (some (HandlerValueCompleter.get_completions
            exitHandler.get_completions))
          { line := "exit ", cursor := 5 } ≠
        CompletionOutcome.yields [] :=
  ⟨rfl, by decide⟩

/-- A handler returning the empty dict as its payload. -/
def emptyResultHandler : CommandHandler :=
  { handle := fun _ => HandleOutcome.ok (some [])
    get_completions := CommandHandler.default_get_completions }

/-- The shell for the C7 counterexample: one command whose handler returns
the empty dict. -/
def emptyResultShell : Shell :=
  Shell.init.register_handler "stats" emptyResultHandler none

/-- C7 counterexample: the `stats` handler returns a payload — the empty
dict — yet nothing reaches the presentation layer, because shell.py:217
`if result:` is false for an empty dict. -/
theorem C7_counterexample :
    emptyResultHandler.handle [] = HandleOutcome.ok (some []) ∧
      (emptyResultShell.dispatch "stats").invocations = [("stats", [])] ∧
      (emptyResultShell.dispatch "stats").printed = none :=
  ⟨rfl, by decide, by decide⟩

/-- C7 (amended): for a successful handler invocation, a non-empty payload
is handed unchanged to the presentation layer, while returning no result —
or an empty, falsy payload — prints nothing; the dispatcher never alters the
payload contents. -/
theorem C7_amended_result_passed_unchanged
    (sh : Shell) (text cmd : String) (fields : Fields)
    (handler : CommandHandler)
    (hne : ¬ pyStripChars text.data = [])
    (hp : sh.parse_args (tokenize text) = Except.ok (cmd, fields))
    (hh : dictGet cmd sh.handler_map = some handler) :
    (∀ payload, handler.handle fields = HandleOutcome.ok (some payload) →
        ¬ payload = [] → (sh.dispatch text).printed = some payload) ∧
      (handler.handle fields = HandleOutcome.ok none →
        (sh.dispatch text).printed = none) ∧
      (handler.handle fields = HandleOutcome.ok (some []) →
        (sh.dispatch text).printed = none) := by
  rw [dispatch_parse_ok sh text cmd fields hne hp]
  refine ⟨?_, ?_, ?_⟩
  · intro payload hr hnp
    rw [handleCommand_ok sh cmd fields handler (some payload) hh hr]
    show displayResult (some payload) = some payload
    cases payload with
    | nil => exact absurd rfl hnp
    | cons x xs => rfl
  · intro hr
    rw [handleCommand_ok sh cmd fields handler none hh hr]
    rfl
  · intro hr
    rw [handleCommand_ok sh cmd fields handler (some []) hh hr]
    rfl

/-- A handler returning a one-entry dict. -/
def echoHandler : CommandHandler :=
  { handle := fun _ => HandleOutcome.ok (some [("status", "done")])
    get_completions := CommandHandler.default_get_completions }

/-- The shell for the C7 witness. -/
def echoShell : Shell :=
  Shell.init.register_handler "echo" echoHandler none

/-- C7 witness: the non-empty payload arrives at the presentation layer
unchanged. -/
theorem C7_witness :
    (echoShell.dispatch "echo").printed = some [("status", "done")] :=
  (C7_amended_result_passed_unchanged echoShell "echo" "echo" [] echoHandler
    (by decide) (by rfl) (by rfl)).1 [("status", "done")] rfl (by decide)

/-- C8: registering a command twice with the same name, handler and argument
set yields exactly the same shell state as a single registration — handler
map, subparser map and completer description alike — so the registry and the
rebuilt completion index are behaviorally indistinguishable; in particular
the command-name candidates computed from the rebuilt description agree for
every partial token. -/
theorem C8_register_idempotent
    (sh : Shell) (name : String) (handler : CommandHandler)
    (argument_set : Option ArgSpec) :
    (sh.register_handler name handler argument_set).register_handler name
        handler argument_set = sh.register_handler name handler argument_set ∧
      ∀ p, ShellCompleter.complete_command_names
          (((sh.register_handler name handler argument_set).register_handler
            name handler argument_set).completer.description) p =
        ShellCompleter.complete_command_names
          ((sh.register_handler name handler
            argument_set).completer.description) p := by
  have hmain : (sh.register_handler name handler argument_set).register_handler
      name handler argument_set = sh.register_handler name handler argument_set := by
    cases argument_set with
    | none =>
      simp [Shell.register_handler, dictInsert_idem]
    | some s =>
      cases hs : s.isEmpty with
      | true =>
        simp [Shell.register_handler, hs, dictInsert_idem]
      | false =>
        simp [Shell.register_handler, ShellCompleter.add_completer, hs,
          dictInsert_idem]
  exact ⟨hmain, fun p => by rw [hmain]⟩

/-- C8 witness: idempotence instantiated at a concrete registration. -/
theorem C8_witness :
    (Shell.init.register_handler "greet" greetHandler
        (some greetSpec)).register_handler "greet" greetHandler
        (some greetSpec) =
      Shell.init.register_handler "greet" greetHandler (some greetSpec) :=
  (C8_register_idempotent Shell.init "greet" greetHandler (some greetSpec)).1

/-- C9 counterexample: tokenization is not by maximal whitespace runs.  Two
consecutive spaces produce an empty token, and a tab does not separate
tokens at all, because shell.py:208 splits on the single space character
only. -/
theorem C9_counterexample :
    tokenize "a  b" = ["a", "", "b"] ∧ "" ∈ tokenize "a  b" ∧
      tokenize "a\tb" = ["a\tb"] := by
  decide

/-- C9 (amended): dispatch strips the line of outer whitespace and splits it
on single space characters: the piece list is never empty, no piece contains
a space character, and rejoining the pieces with single spaces reconstructs
the stripped input — so runs of consecutive spaces yield empty tokens and
whitespace other than the space character never separates; the resulting
token list is exactly what `Shell.dispatch` hands to `Shell.parse_args`. -/
theorem C9_amended_tokenization (l : List Char) :
    joinSpaces (splitOnSpaceChars l) = l ∧
      splitOnSpaceChars l ≠ [] ∧
      (∀ t ∈ splitOnSpaceChars l, ' ' ∉ t) ∧
      ∀ text : String, tokenize text =
        (splitOnSpaceChars (pyStripChars text.data)).map
          (fun cs => String.mk cs) :=
  ⟨joinSpaces_splitOnSpaceChars l, splitOnSpaceChars_ne_nil l,
    space_not_mem_splitOnSpaceChars l, fun _ => rfl⟩

/-- C9 witness: the no-space-inside-tokens part instantiated on a concrete
character list. -/
theorem C9_witness :
    ('a' :: 'b' :: []) ∈ splitOnSpaceChars ('a' :: 'b' :: ' ' :: 'c' :: []) ∧
      ' ' ∉ ('a' :: 'b' :: []) :=
  ⟨by decide,
    (C9_amended_tokenization ('a' :: 'b' :: ' ' :: 'c' :: [])).2.2.1
      ('a' :: 'b' :: []) (by decide)⟩

/-- C10: after construction the handler map and the subparser map hold
exactly the same command names, with `help` and `exit` present in both, and
`register_handler` both preserves that consistency and never removes a name,
so every registered name — the builtins included — stays bound in both maps
after every registration. -/
theorem C10_registry_maps_consistent :
    (Shell.init.mapsConsistent ∧
        "help" ∈ dictKeys Shell.init.handler_map ∧
        "exit" ∈ dictKeys Shell.init.handler_map ∧
        "help" ∈ dictKeys Shell.init.subparser_map ∧
        "exit" ∈ dictKeys Shell.init.subparser_map) ∧
      ∀ (sh : Shell) (name : String) (handler : CommandHandler)
        (argument_set : Option ArgSpec),
        (sh.mapsConsistent →
          (sh.register_handler name handler argument_set).mapsConsistent) ∧
        (∀ k, k ∈ dictKeys sh.handler_map →
          k ∈ dictKeys
            ((sh.register_handler name handler argument_set).handler_map)) ∧
        (∀ k, k ∈ dictKeys sh.subparser_map →
          k ∈ dictKeys
            ((sh.register_handler name handler argument_set).subparser_map)) := by
  constructor
  · refine ⟨?_, ?_, ?_, ?_, ?_⟩
    · unfold Shell.mapsConsistent
      decide
    · decide
    · decide
    · decide
    · decide
  · intro sh name handler argument_set
    refine ⟨?_, ?_, ?_⟩
    · intro hc
      show dictKeys (dictInsert name handler sh.handler_map) =
        dictKeys (dictInsert name _ sh.subparser_map)
      rw [dictKeys_dictInsert, dictKeys_dictInsert, hc]
    · intro k hk
      exact mem_dictKeys_dictInsert_of_mem name k handler sh.handler_map hk
    · intro k hk
      exact mem_dictKeys_dictInsert_of_mem name k _ sh.subparser_map hk

/-- C10 witness: consistency preserved by a concrete registration on the
fresh shell. -/
theorem C10_witness :
    (Shell.init.register_handler "greet" greetHandler
        (some greetSpec)).mapsConsistent :=
  (C10_registry_maps_consistent.2 Shell.init "greet" greetHandler
    (some greetSpec)).1 C10_registry_maps_consistent.1.1

end Shellody
